import Mathlib

/-
Verification of the intents-operator reconciliation engine against its
specification.  The Go sources are shallowly embedded: every cluster or
broker interaction is an oracle recorded in an environment structure, and
each reconciler returns its Go result together with the trace of writes
and Kubernetes events it emitted, in order.
-/

set_option maxRecDepth 4096

deriving instance DecidableEq for Except

/-- Kubernetes API error classes distinguished by the reconcilers via
`k8serrors.IsNotFound` and `k8serrors.IsConflict`. -/
inductive KErr where
  | notFound
  | conflict
  | generic
deriving DecidableEq

def KErr.isNotFound : KErr → Bool
  | .notFound => true
  | _ => false

def KErr.isConflict : KErr → Bool
  | .conflict => true
  | _ => false

/-- Call kinds carried by an Intent (`intent.Type` in the v1alpha3 API). -/
inductive IntentType where
  | network
  | kafka
  | http
deriving DecidableEq

/-- One Call of an intents object: the target server name (`Server` in the
v1alpha1 API, `Name` in v1alpha3), the optional target namespace (empty
string when unset) and the call kind. -/
structure Intent where
  server : String
  ns : String
  type : IntentType
deriving DecidableEq

/-- The Spec of an intents object: declaring service name and Calls list. -/
structure IntentsSpec where
  service : String
  calls : List Intent
deriving DecidableEq

/-- An intents object as the reconcilers read it: object name, namespace,
optional Spec (nil in Go is `none`), whether the deletion timestamp is set,
and the finalizer list. -/
structure IntentsObj where
  name : String
  ns : String
  spec : Option IntentsSpec
  deletionTimestamp : Bool
  finalizers : List String
deriving DecidableEq

/-- The `ctrl.Result` returned by a reconcile: only the Requeue flag is
used by this code. -/
structure CtrlResult where
  requeue : Bool
deriving DecidableEq

/-- Observable effects of a reconcile pass, in program order: cluster
writes, Kubernetes events recorded on the intents object, and broker
admin-session operations. -/
inductive Event where
  | updateIntents (finalizers : List String)
  | createPolicy (name ns : String)
  | deletePolicy (name ns : String)
  | normalEvent (reason : String)
  | warnEvent (reason : String)
  | openAdmin (name ns : String) (creationEnabled shouldCreate : Bool)
  | applyIntents (name ns : String)
  | removeIntents (name ns : String)
  | closeAdmin (name ns : String)
deriving DecidableEq

/-- The network-policy name built by `fmt.Sprintf(OtterizeNetworkPolicyNameTemplate,
intent.Server, intentsObjNamespace)` with template `access-to-%s-from-%s`. -/
def networkPolicyName (server intentsObjNamespace : String) : String :=
  "access-to-" ++ server ++ "-from-" ++ intentsObjNamespace

/-- The finalizer token `otterize-intents.policies/finalizer`. -/
def npFinalizer : String := "otterize-intents.policies/finalizer"

/-- Environment of the NetworkPolicyReconciler: the outcome of each
Kubernetes API call it can make.  `getPolicy`, `createPolicy` and
`deletePolicy` are keyed by (policy name, policy namespace); `updateIntents`
is keyed by the finalizer list being persisted on the intents object;
`listByServer` is the indexed List call, keyed by (target-server index
value, namespace restriction). -/
structure NPEnv where
  getIntents : Except KErr IntentsObj
  getPolicy : String → String → Except KErr Unit
  createPolicy : String → String → Except KErr Unit
  deletePolicy : String → String → Except KErr Unit
  updateIntents : List String → Except KErr Unit
  listByServer : String → String → Except KErr (List IntentsObj)

/-- Namespace defaulting applied to a Call at the top of both loops:
`if intent.Namespace == "" { intent.Namespace = <declaring namespace> }`. -/
def defaultedCall (declNs : String) (c : Intent) : Intent :=
  if c.ns = "" then { c with ns := declNs } else c

/-- Modelled from the spec: `Intents.GetCallsList` is not among the
sources; per the data model the Calls list lives in the Spec, so it
returns `Spec.Calls` (callers only reach it with a non-nil Spec). -/
def callsOf (o : IntentsObj) : List Intent :=
  match o.spec with
  | some sp => sp.calls
  | none => []

/-- Embedding of `handleNetworkPolicyCreation`: look the policy up by its
deterministic name; on not-found create it; on any other lookup error
return the error; on success do nothing (no diff is attempted). -/
def handleNetworkPolicyCreation (env : NPEnv) (intent : Intent)
    (intentsObjNamespace : String) : Except KErr Unit × List Event :=
  let policyName := networkPolicyName intent.server intentsObjNamespace
  match env.getPolicy policyName intent.ns with
  | .error e =>
    if e.isNotFound then
      match env.createPolicy policyName intent.ns with
      | .error e2 => (.error e2, [Event.createPolicy policyName intent.ns])
      | .ok _ => (.ok (), [Event.createPolicy policyName intent.ns])
    else (.error e, [])
  | .ok _ => (.ok (), [])

/-- The creation loop of `Reconcile`: namespace-default each Call then run
`handleNetworkPolicyCreation`, stopping at the first error. -/
def createCalls (env : NPEnv) (declNs : String) :
    List Intent → Except KErr Unit × List Event
  | [] => (.ok (), [])
  | c :: rest =>
    match handleNetworkPolicyCreation env (defaultedCall declNs c) declNs with
    | (.error e, tr) => (.error e, tr)
    | (.ok _, tr) =>
      let r := createCalls env declNs rest
      (r.1, tr ++ r.2)

/-- Embedding of `removeNetworkPolicy`.  The Go function treats not-found
as success; in every other branch it issues the Delete and returns nil:
the body reads `err := r.Delete(ctx, policy); if err != nil { return nil }`,
so a Delete failure is swallowed, and a non-not-found Get error also falls
into the else branch, deleting the zero-valued policy object (name and
namespace both empty). -/
def removeNetworkPolicy (env : NPEnv) (intent : Intent)
    (intentsObjNamespace : String) : Except KErr Unit × List Event :=
  let policyName := networkPolicyName intent.server intentsObjNamespace
  match env.getPolicy policyName intent.ns with
  | .error e =>
    if e.isNotFound then (.ok (), [])
    else
      match env.deletePolicy "" "" with
      | .error _ => (.ok (), [Event.deletePolicy "" ""])
      | .ok _ => (.ok (), [Event.deletePolicy "" ""])
  | .ok _ =>
    match env.deletePolicy policyName intent.ns with
    | .error _ => (.ok (), [Event.deletePolicy policyName intent.ns])
    | .ok _ => (.ok (), [Event.deletePolicy policyName intent.ns])

/-- One iteration of the Terminating loop in `cleanFinalizerAndPolicies`:
default the Call namespace, list intents in the declaring namespace whose
target-server index matches the Call server, and remove the policy exactly
when that list has length one. -/
def cleanCall (env : NPEnv) (declNs : String) (c : Intent) :
    Except KErr Unit × List Event :=
  let c2 := defaultedCall declNs c
  match env.listByServer c2.server declNs with
  | .error e => (.error e, [])
  | .ok items =>
    if items.length = 1 then removeNetworkPolicy env c2 declNs
    else (.ok (), [])

/-- The Terminating loop over all Calls, stopping at the first error. -/
def cleanCalls (env : NPEnv) (declNs : String) :
    List Intent → Except KErr Unit × List Event
  | [] => (.ok (), [])
  | c :: rest =>
    match cleanCall env declNs c with
    | (.error e, tr) => (.error e, tr)
    | (.ok _, tr) =>
      let r := cleanCalls env declNs rest
      (r.1, tr ++ r.2)

/-- Embedding of `cleanFinalizerAndPolicies`: when the finalizer is
present, run the per-Call cleanup loop, then remove the finalizer and
persist with Update (the Update is attempted only after the loop ran
without error, and its outcome is propagated). -/
def cleanFinalizerAndPolicies (env : NPEnv) (o : IntentsObj) :
    Except KErr Unit × List Event :=
  if npFinalizer ∈ o.finalizers then
    match cleanCalls env o.ns (callsOf o) with
    | (.error e, tr) => (.error e, tr)
    | (.ok _, tr) =>
      let fs := o.finalizers.filter (fun f => f ≠ npFinalizer)
      match env.updateIntents fs with
      | .error e => (.error e, tr ++ [Event.updateIntents fs])
      | .ok _ => (.ok (), tr ++ [Event.updateIntents fs])
  else (.ok (), [])

/-- Embedding of `NetworkPolicyReconciler.Reconcile`: not-found and nil
Spec return success; a terminating object runs cleanup, converting a
conflict error into `Requeue` with nil error; an active object first
attaches and persists the finalizer when absent, then runs the creation
loop. -/
def npReconcile (env : NPEnv) : Except KErr CtrlResult × List Event :=
  match env.getIntents with
  | .error e => if e.isNotFound then (.ok ⟨false⟩, []) else (.error e, [])
  | .ok o =>
    match o.spec with
    | none => (.ok ⟨false⟩, [])
    | some sp =>
      if o.deletionTimestamp then
        match cleanFinalizerAndPolicies env o with
        | (.error e, tr) =>
          if e.isConflict then (.ok ⟨true⟩, tr) else (.error e, tr)
        | (.ok _, tr) => (.ok ⟨false⟩, tr)
      else
        match
          (if npFinalizer ∈ o.finalizers then
            ((Except.ok () : Except KErr Unit), ([] : List Event))
          else
            let fs := o.finalizers ++ [npFinalizer]
            match env.updateIntents fs with
            | .error e => (.error e, [Event.updateIntents fs])
            | .ok _ => (.ok (), [Event.updateIntents fs])) with
        | (.error e, tr) => (.error e, tr)
        | (.ok _, tr) =>
          match createCalls env o.ns sp.calls with
          | (.error e, tr2) => (.error e, tr ++ tr2)
          | (.ok _, tr2) => (.ok ⟨false⟩, tr ++ tr2)

/-- Event reason `CouldNotConnectToKafkaServer`. -/
def ReasonCouldNotConnectToKafkaServer : String := "CouldNotConnectToKafkaServer"

/-- Event reason `CouldNotApplyIntentsOnKafkaServer`. -/
def ReasonCouldNotApplyIntentsOnKafkaServer : String := "CouldNotApplyIntentsOnKafkaServer"

/-- Event reason `KafkaACLCreationDisabled`. -/
def ReasonKafkaACLCreationDisabled : String := "KafkaACLCreationDisabled"

/-- Event reason `KafkaServerNotConfigured`. -/
def ReasonKafkaServerNotConfigured : String := "KafkaServerNotConfigured"

/-- Event reason `RemovingKafkaACLsFailed`. -/
def ReasonRemovingKafkaACLsFailed : String := "RemovingKafkaACLsFailed"

/-- Event reason `ApplyingKafkaACLsFailed`. -/
def ReasonApplyingKafkaACLsFailed : String := "ApplyingKafkaACLsFailed"

/-- Event reason `AppliedKafkaACLs`. -/
def ReasonAppliedKafkaACLs : String := "AppliedKafkaACLs"

/-- Event reason `IntentsOperatorIdentityResolveFailed`. -/
def ReasonIntentsOperatorIdentityResolveFailed : String := "IntentsOperatorIdentityResolveFailed"

/-- Event reason `EnforcementDefaultOff` (from the shared consts package). -/
def ReasonEnforcementDefaultOff : String := "EnforcementDefaultOff"

/-- Environment of the KafkaACLReconciler.  `brokers` is the contents of
`KafkaServersStore` as (name, namespace) keys; `isEnforced` is the outcome
of `IsServerEnforcementEnabledDueToProtectionOrDefaultState` per broker
(repository code outside the sources, abstracted as an oracle per the
Enforcement Policy Resolver contract, which may propagate read errors);
`connect` is the outcome of `getNewKafkaIntentsAdmin` given the broker and
the (enableKafkaACLCreation, shouldCreatePolicy) pair it is passed;
`applyResult` and `removeResult` are the outcomes of the admin sessions
`ApplyClientIntents` and `RemoveClientIntents` calls per broker;
`resolvePodName` is `serviceResolver.GetPodAnnotatedName` for the operator
pod, returning `none` when the annotation is missing. -/
structure KEnv where
  getIntents : Except KErr IntentsObj
  brokers : List (String × String)
  isEnforced : String × String → Except KErr Bool
  connect : String × String → Bool → Bool → Except KErr Unit
  applyResult : String × String → Except KErr Unit
  removeResult : String × String → Except KErr Unit
  resolvePodName : Except KErr (Option String)
  operatorPodNamespace : String
  enableKafkaACLCreation : Bool

/-- Embedding of `getIntentsByServer`, reduced to its key set: the distinct
(target name, target namespace) pairs of the Kafka-type Calls.  Modelled
from the spec where the accessors are missing from the sources:
`GetTargetServerName` yields the Call target name and
`GetTargetServerNamespace` defaults an unset target namespace to the
declaring namespace. -/
def getIntentsByServer (defaultNs : String) (calls : List Intent) :
    List (String × String) :=
  ((calls.filter (fun c => c.type == IntentType.kafka)).map
    (fun c => (c.server, if c.ns = "" then defaultNs else c.ns))).eraseDups

/-- Modelled from the spec: `kafkaacls.ServersStore.MapErr` is not among
the sources.  Per §4.5 it runs the callback for every configured broker;
its `error` result and Go signature make it stop at the first callback
error, which it returns. -/
def mapErrBrokers (f : String × String → Except KErr Unit × List Event) :
    List (String × String) → Except KErr Unit × List Event
  | [] => (.ok (), [])
  | b :: rest =>
    match f b with
    | (.error e, tr) => (.error e, tr)
    | (.ok _, tr) =>
      let r := mapErrBrokers f rest
      (r.1, tr ++ r.2)

/-- The per-broker callback of `applyACLs`: resolve enforcement (recording
the default-off normal event when it is false), connect the admin session
(a failure records a warning event and returns the error), then apply the
intents for this broker (a failure records a warning event and returns the
error); the deferred Close always runs once the session was opened. -/
def applyBroker (env : KEnv) (b : String × String) :
    Except KErr Unit × List Event :=
  match env.isEnforced b with
  | .error e => (.error e, [])
  | .ok shouldCreate =>
    let evs0 := if shouldCreate then []
      else [Event.normalEvent ReasonEnforcementDefaultOff]
    match env.connect b env.enableKafkaACLCreation shouldCreate with
    | .error e =>
      (.error e, evs0 ++ [Event.warnEvent ReasonCouldNotConnectToKafkaServer])
    | .ok _ =>
      let evs1 := evs0 ++ [Event.openAdmin b.1 b.2 env.enableKafkaACLCreation shouldCreate]
      match env.applyResult b with
      | .error e =>
        (.error e, evs1 ++ [Event.applyIntents b.1 b.2,
          Event.warnEvent ReasonCouldNotApplyIntentsOnKafkaServer,
          Event.closeAdmin b.1 b.2])
      | .ok _ =>
        (.ok (), evs1 ++ [Event.applyIntents b.1 b.2, Event.closeAdmin b.1 b.2])

/-- Embedding of `KafkaACLReconciler.applyACLs`: loop over every configured
broker; afterwards record the creation-disabled normal event when ACL
creation is off, and a warning event for every intent target with no
configured broker; return the number of distinct intent targets. -/
def applyACLs (env : KEnv) (o : IntentsObj) (sp : IntentsSpec) :
    Except KErr Nat × List Event :=
  let byServer := getIntentsByServer o.ns sp.calls
  match mapErrBrokers (applyBroker env) env.brokers with
  | (.error e, tr) => (.error e, tr)
  | (.ok _, tr) =>
    let tr2 := tr ++ (if env.enableKafkaACLCreation then []
      else [Event.normalEvent ReasonKafkaACLCreationDisabled])
    let tr3 := tr2 ++ (byServer.filter
      (fun s => ¬ env.brokers.contains s)).map
      (fun _ => Event.warnEvent ReasonKafkaServerNotConfigured)
    (.ok byServer.length, tr3)

/-- The per-broker callback of `RemoveACLs`: resolve enforcement, connect
the admin session passing the enforcement decision through unchanged, and
call `RemoveClientIntents` for the declaring service; errors propagate. -/
def removeBroker (env : KEnv) (b : String × String) :
    Except KErr Unit × List Event :=
  match env.isEnforced b with
  | .error e => (.error e, [])
  | .ok shouldCreate =>
    match env.connect b env.enableKafkaACLCreation shouldCreate with
    | .error e => (.error e, [])
    | .ok _ =>
      match env.removeResult b with
      | .error e =>
        (.error e, [Event.openAdmin b.1 b.2 env.enableKafkaACLCreation shouldCreate,
          Event.removeIntents b.1 b.2, Event.closeAdmin b.1 b.2])
      | .ok _ =>
        (.ok (), [Event.openAdmin b.1 b.2 env.enableKafkaACLCreation shouldCreate,
          Event.removeIntents b.1 b.2, Event.closeAdmin b.1 b.2])

/-- Embedding of `KafkaACLReconciler.RemoveACLs`: the same per-broker loop
over every configured broker, with no enforcement gate on removal. -/
def removeACLs (env : KEnv) : Except KErr Unit × List Event :=
  mapErrBrokers (removeBroker env) env.brokers

/-- Embedding of `handleIntentsDeletion`: a removal failure records a
warning event and returns the error. -/
def handleIntentsDeletion (env : KEnv) :
    Except KErr CtrlResult × List Event :=
  match removeACLs env with
  | (.error e, tr) => (.error e, tr ++ [Event.warnEvent ReasonRemovingKafkaACLsFailed])
  | (.ok _, tr) => (.ok ⟨false⟩, tr)

/-- Embedding of `isIntentsForTheIntentsOperator`: outside the operator
namespace the answer is no; a resolver error is returned wrapped, with no
event; a missing annotation records a warning event and returns an error;
otherwise compare the resolved name with the declaring service name. -/
def isIntentsForTheIntentsOperator (env : KEnv) (o : IntentsObj)
    (sp : IntentsSpec) : Except KErr Bool × List Event :=
  if env.operatorPodNamespace ≠ o.ns then (.ok false, [])
  else
    match env.resolvePodName with
    | .error e => (.error e, [])
    | .ok none =>
      (.error KErr.generic, [Event.warnEvent ReasonIntentsOperatorIdentityResolveFailed])
    | .ok (some name) => (.ok (name == sp.service), [])

/-- Embedding of the lower-case `applyAcls` wrapper: an apply failure
records a warning event and returns the error; success records the
applied-ACLs normal event when at least one broker was reconciled. -/
def applyAcls (env : KEnv) (o : IntentsObj) (sp : IntentsSpec) :
    Except KErr CtrlResult × List Event :=
  match applyACLs env o sp with
  | (.error e, tr) => (.error e, tr ++ [Event.warnEvent ReasonApplyingKafkaACLsFailed])
  | (.ok n, tr) =>
    (.ok ⟨false⟩, tr ++ (if 0 < n then [Event.normalEvent ReasonAppliedKafkaACLs] else []))

/-- Embedding of `KafkaACLReconciler.Reconcile`: not-found and nil Spec
return success; a terminating object runs removal; an active object first
checks whether the declaring service is the operator itself (propagating
its error), skips when it is, and otherwise applies ACLs. -/
def kafkaReconcile (env : KEnv) : Except KErr CtrlResult × List Event :=
  match env.getIntents with
  | .error e => if e.isNotFound then (.ok ⟨false⟩, []) else (.error e, [])
  | .ok o =>
    match o.spec with
    | none => (.ok ⟨false⟩, [])
    | some sp =>
      if o.deletionTimestamp then handleIntentsDeletion env
      else
        match isIntentsForTheIntentsOperator env o sp with
        | (.error e, tr) => (.error e, tr)
        | (.ok true, tr) => (.ok ⟨false⟩, tr)
        | (.ok false, tr) =>
          match applyAcls env o sp with
          | (.error e, tr2) => (.error e, tr ++ tr2)
          | (.ok r, tr2) => (.ok r, tr ++ tr2)

/-- A broker-side ACL entry keyed by principal, topic and operation. -/
structure AclEntry where
  principal : String
  topic : String
  operation : String
deriving DecidableEq

/-- Modelled from the spec: the Kafka admin collaborator
(`KafkaIntentsAdminImpl`, outside the sources) applied to the broker ACL
state.  Per §4.5 and the source comment, when enforcement is false it
skips permission-grants but still performs permission-revocations: entries
of the principal that are no longer desired are removed, and new entries
are added only when both enforcement and ACL creation are enabled. -/
def applyClientIntentsAcls (enforcementActive creationEnabled : Bool)
    (principal : String) (desired : List AclEntry) (st : List AclEntry) :
    List AclEntry :=
  let kept := st.filter (fun g => g.principal != principal || desired.contains g)
  if enforcementActive && creationEnabled then
    kept ++ desired.filter (fun g => ¬ st.contains g)
  else kept

/-- Modelled from the spec: `RemoveClientIntents` removes every ACL entry
owned by the declaring service identity, regardless of enforcement. -/
def removeClientIntentsAcls (principal : String) (st : List AclEntry) :
    List AclEntry :=
  st.filter (fun g => g.principal != principal)

/-- A ProtectedService object: object name, namespace and `Spec.Name`. -/
structure ProtectedServiceObj where
  name : String
  ns : String
  specName : String
deriving DecidableEq

/-- A `field.Error` produced by the webhook validators. -/
structure FieldErr where
  typ : String
  field : String
deriving DecidableEq

/-- The admission outcome: a List failure, an Invalid error carrying the
field errors, or admission. -/
inductive AdmissionResult where
  | listError (e : KErr)
  | invalid (errs : List FieldErr)
  | admitted
deriving DecidableEq

/-- Embedding of `validateNoDuplicateClients`: scan the namespace listing
and report a Duplicate field error for the first item whose `Spec.Name`
equals the admitted objects `Spec.Name` while the items object name
differs from the admitted objects `Spec.Name` (this is the comparison the
source makes). -/
def validateNoDuplicateClients (ps : ProtectedServiceObj)
    (items : List ProtectedServiceObj) : Option FieldErr :=
  (items.find? (fun item =>
    item.specName == ps.specName && item.name != ps.specName)).map
    (fun _ => { typ := "Duplicate", field := "name" })

/-- The separator stripping in `validateSpec`: remove every `-` and `_`. -/
def stripSeparators (s : String) : String :=
  String.mk (s.toList.filter (fun c => ¬ (c = '-' ∨ c = '_')))

/-- The govalidator `IsAlphanumeric` check used by `validateSpec`: an empty
string is valid, otherwise every character must match `[a-zA-Z0-9]`. -/
def isAlphanumericStr (s : String) : Bool :=
  s.toList.isEmpty || s.toList.all (fun c => c.isAlpha || c.isDigit)

/-- The govalidator `IsLowerCase` check used by `validateSpec`: an empty
string is valid, otherwise the string must equal its lower-casing
(character-wise, as `strings.ToLower` maps each rune). -/
def isLowerCaseStr (s : String) : Bool :=
  s.toList.isEmpty || s.toList == s.toList.map Char.toLower

/-- Embedding of `validateSpec`: after separator-stripping the service name
must be lowercase alphanumeric, else a Forbidden field error. -/
def validateSpec (ps : ProtectedServiceObj) : Option FieldErr :=
  let stripped := stripSeparators ps.specName
  if isAlphanumericStr stripped && isLowerCaseStr stripped then none
  else some { typ := "Forbidden", field := "Name" }

/-- Embedding of `ValidateCreate`: list the namespace (propagating a List
failure), collect the duplicate-client and spec errors, admit when there
are none and return Invalid otherwise. -/
def validateCreate (ps : ProtectedServiceObj)
    (listResult : Except KErr (List ProtectedServiceObj)) : AdmissionResult :=
  match listResult with
  | .error e => .listError e
  | .ok items =>
    let allErrs := (validateNoDuplicateClients ps items).toList ++ (validateSpec ps).toList
    if allErrs.isEmpty then .admitted else .invalid allErrs

/-- Embedding of `ValidateUpdate`: identical body to `ValidateCreate`,
applied to the new object (the old object is unused). -/
def validateUpdate (_oldPs newPs : ProtectedServiceObj)
    (listResult : Except KErr (List ProtectedServiceObj)) : AdmissionResult :=
  match listResult with
  | .error e => .listError e
  | .ok items =>
    let allErrs := (validateNoDuplicateClients newPs items).toList ++ (validateSpec newPs).toList
    if allErrs.isEmpty then .admitted else .invalid allErrs

lemma string_length_append (a b : String) : (a ++ b).length = a.length + b.length := by
  rcases a with ⟨la⟩
  rcases b with ⟨lb⟩
  show (String.mk (la ++ lb)).length = (String.mk la).length + (String.mk lb).length
  show (la ++ lb).length = la.length + lb.length
  exact List.length_append la lb

lemma networkPolicyName_length (s n : String) :
    (networkPolicyName s n).length = 16 + s.length + n.length := by
  simp only [networkPolicyName, string_length_append]
  have h1 : ("access-to-" : String).length = 10 := rfl
  have h2 : ("-from-" : String).length = 6 := rfl
  omega

lemma networkPolicyName_ne_empty (s n : String) : networkPolicyName s n ≠ "" := by
  intro h
  have hl := congrArg String.length h
  rw [networkPolicyName_length] at hl
  have h0 : ("" : String).length = 0 := rfl
  omega

lemma removeNetworkPolicy_events (env : NPEnv) (c : Intent) (ns : String) :
    ∀ ev ∈ (removeNetworkPolicy env c ns).2, ∃ a b, ev = Event.deletePolicy a b := by
  intro ev hev
  simp only [removeNetworkPolicy] at hev
  cases hg : env.getPolicy (networkPolicyName c.server ns) c.ns with
  | error e =>
    rw [hg] at hev
    by_cases hnf : e.isNotFound = true
    · simp [hnf] at hev
    · simp only [Bool.not_eq_true] at hnf
      cases hd : env.deletePolicy "" "" with
      | error e2 => simp [hnf, hd] at hev; exact ⟨"", "", hev⟩
      | ok u => simp [hnf, hd] at hev; exact ⟨"", "", hev⟩
  | ok u =>
    rw [hg] at hev
    cases hd : env.deletePolicy (networkPolicyName c.server ns) c.ns with
    | error e2 =>
      simp [hd] at hev
      exact ⟨networkPolicyName c.server ns, c.ns, hev⟩
    | ok u2 =>
      simp [hd] at hev
      exact ⟨networkPolicyName c.server ns, c.ns, hev⟩

lemma cleanCall_events (env : NPEnv) (declNs : String) (c : Intent) :
    ∀ ev ∈ (cleanCall env declNs c).2, ∃ a b, ev = Event.deletePolicy a b := by
  intro ev hev
  simp only [cleanCall] at hev
  cases hl : env.listByServer (defaultedCall declNs c).server declNs with
  | error e => rw [hl] at hev; simp at hev
  | ok items =>
    rw [hl] at hev
    by_cases hlen : items.length = 1
    · simp only [hlen, if_true] at hev
      exact removeNetworkPolicy_events env _ declNs ev hev
    · simp [hlen] at hev

lemma cleanCalls_events (env : NPEnv) (declNs : String) (cs : List Intent) :
    ∀ ev ∈ (cleanCalls env declNs cs).2, ∃ a b, ev = Event.deletePolicy a b := by
  induction cs with
  | nil => intro ev hev; simp [cleanCalls] at hev
  | cons c rest ih =>
    intro ev hev
    unfold cleanCalls at hev
    cases hc : cleanCall env declNs c with
    | mk r tr =>
      cases r with
      | error e =>
        rw [hc] at hev
        simp at hev
        exact cleanCall_events env declNs c ev (by rw [hc]; exact hev)
      | ok u =>
        rw [hc] at hev
        simp at hev
        rcases hev with hev | hev
        · exact cleanCall_events env declNs c ev (by rw [hc]; exact hev)
        · exact ih ev hev

lemma mapErrBrokers_mem (f : String × String → Except KErr Unit × List Event)
    (bs : List (String × String))
    (hok : ∀ b ∈ bs, (f b).1 = .ok ()) :
    ∀ b ∈ bs, ∀ ev ∈ (f b).2, ev ∈ (mapErrBrokers f bs).2 := by
  induction bs with
  | nil => intro b hb; simp at hb
  | cons b0 rest ih =>
    intro b hb ev hev
    have hok0 : (f b0).1 = .ok () := hok b0 (List.mem_cons_self b0 rest)
    unfold mapErrBrokers
    cases hf : f b0 with
    | mk r tr =>
      rw [hf] at hok0
      simp only at hok0
      rw [hok0]
      simp only [List.mem_append]
      rcases List.mem_cons.mp hb with hbeq | hbrest
      · left
        rw [hbeq] at hev
        rw [hf] at hev
        exact hev
      · right
        exact ih (fun b' hb' => hok b' (List.mem_cons_of_mem b0 hb')) b hbrest ev hev

/-- C7 counterexample inputs: a target server and declaring namespace whose
natural concatenation in the name template exceeds 63 characters. -/
def c7Server : String := "user-profile-service-with-a-rather-long-name"

/-- C7 counterexample namespace. -/
def c7Namespace : String := "production-workloads"

/-- C7: the claim asserts that for inputs whose natural concatenation
exceeds 63 characters the produced rule name is still at most 63
characters.  At this concrete over-length input the produced name is the
raw 80-character concatenation: no truncation or hash suffix is applied. -/
theorem C7_counterexample_no_truncation :
    (networkPolicyName c7Server c7Namespace).length = 80
    ∧ ¬ ((networkPolicyName c7Server c7Namespace).length ≤ 63) := by
  constructor
  · decide
  · decide

/-- C7 amended: the rule name is built deterministically from the template
`access-to-<target>-from-<namespace>`; equal inputs give equal names, but
no truncation or content-hash is ever applied, so the name length is
always exactly 16 plus the two input lengths and exceeds 63 characters
whenever the natural concatenation does. -/
theorem C7_amended_name_deterministic_unbounded (s n : String) :
    (networkPolicyName s n).length = 16 + s.length + n.length :=
  networkPolicyName_length s n

/-- Environment for the C2 failing input: the policy lookup succeeds and
the Delete call fails. -/
def c2Env : NPEnv :=
  { getIntents := .error .notFound
    getPolicy := fun _ _ => .ok ()
    createPolicy := fun _ _ => .ok ()
    deletePolicy := fun _ _ => .error .generic
    updateIntents := fun _ => .ok ()
    listByServer := fun _ _ => .ok [] }

/-- Environment for the second C2 failing input: the policy lookup itself
fails with an error that is not not-found. -/
def c2EnvLookup : NPEnv :=
  { c2Env with
    getPolicy := fun _ _ => .error .generic
    deletePolicy := fun _ _ => .error .generic }

/-- The C2 call whose rule is being removed. -/
def c2Call : Intent := { server := "server", ns := "ns1", type := .network }

/-- C2: the code is wrong.  When the Delete of the found rule fails,
`removeNetworkPolicy` returns nil (the body reads
`if err != nil { return nil }`), so finalizer removal proceeds instead of
aborting; and when the lookup fails with an error that is not not-found,
the error is likewise not returned: the code falls into the else branch
and issues a Delete of the zero-valued policy, again returning nil.  The
not-found case, by contrast, is correctly treated as success. -/
theorem C2_code_bug_eval :
    (removeNetworkPolicy c2Env c2Call "ns1"
      = (.ok (), [Event.deletePolicy "access-to-server-from-ns1" "ns1"]))
    ∧ (removeNetworkPolicy c2EnvLookup c2Call "ns1"
      = (.ok (), [Event.deletePolicy "" ""]))
    ∧ (removeNetworkPolicy { c2Env with getPolicy := fun _ _ => .error .notFound }
        c2Call "ns1" = (.ok (), [])) := by
  refine ⟨?_, ?_, ?_⟩ <;> decide

/-- The already-stored Protection Declaration for the C8 failing input:
its object name equals its declared service name. -/
def c8Existing : ProtectedServiceObj :=
  { name := "checkout", ns := "ns1", specName := "checkout" }

/-- The object being admitted in the C8 failing input: a distinct object
declaring the same service name. -/
def c8New : ProtectedServiceObj :=
  { name := "checkout-copy", ns := "ns1", specName := "checkout" }

/-- An object whose own name differs from its declared service name, used
to show the converse slip on update. -/
def c8Self : ProtectedServiceObj :=
  { name := "svc-a", ns := "ns1", specName := "checkout" }

/-- C8: the code is wrong.  The duplicate check compares each listed
objects name against the admitted objects `Spec.Name` instead of its
object name, contradicting its own comment about skipping only the same
object being updated.  Consequently a distinct duplicate whose object name
equals the admitted `Spec.Name` is admitted, and an update of an object
whose own name differs from its `Spec.Name` is rejected against itself
although no distinct duplicate exists. -/
theorem C8_code_bug_eval :
    validateCreate c8New (.ok [c8Existing]) = .admitted
    ∧ validateUpdate c8Self c8Self (.ok [c8Self])
      = .invalid [{ typ := "Duplicate", field := "name" }] := by
  constructor
  · decide
  · decide

lemma defaultedCall_server (declNs : String) (c : Intent) :
    (defaultedCall declNs c).server = c.server := by
  unfold defaultedCall
  split <;> rfl

/-- C1: in the Terminating path, the per-Call cleanup lists the intent
objects in the declaring namespace whose target-server index matches the
Call server, and it issues the Delete of the derived firewall rule for
(server, declaring namespace) if and only if that listing returned exactly
one intent (and the rule is present to be deleted); with more than one
matching intent the rule is left untouched. -/
theorem C1_rule_deleted_iff_last_reference (env : NPEnv) (declNs : String)
    (c : Intent) (L : List IntentsObj)
    (h : env.listByServer c.server declNs = .ok L) :
    (Event.deletePolicy (networkPolicyName c.server declNs)
        (defaultedCall declNs c).ns ∈ (cleanCall env declNs c).2)
    ↔ (L.length = 1
       ∧ env.getPolicy (networkPolicyName c.server declNs)
           (defaultedCall declNs c).ns = .ok ()) := by
  have hs := defaultedCall_server declNs c
  simp only [cleanCall, hs, h]
  by_cases hlen : L.length = 1
  · simp only [hlen, if_true]
    simp only [removeNetworkPolicy, hs]
    cases hg : env.getPolicy (networkPolicyName c.server declNs)
        (defaultedCall declNs c).ns with
    | error e =>
      by_cases hnf : e.isNotFound = true
      · simp [hnf, hg]
      · simp only [Bool.not_eq_true] at hnf
        cases hd : env.deletePolicy "" "" with
        | error e2 =>
          simp [hnf, hd, networkPolicyName_ne_empty c.server declNs]
        | ok u =>
          simp [hnf, hd, networkPolicyName_ne_empty c.server declNs]
    | ok u =>
      cases hd : env.deletePolicy (networkPolicyName c.server declNs)
          (defaultedCall declNs c).ns with
      | error e2 => simp [hd]
      | ok u2 => simp [hd]
  · simp [hlen]

/-- The finalizing intents object of the C1 witness scenario. -/
def c1Obj : IntentsObj :=
  { name := "client-intents", ns := "ns1"
    spec := some { service := "client", calls := [{ server := "server", ns := "", type := .network }] }
    deletionTimestamp := true, finalizers := [npFinalizer] }

/-- C1 witness environment: the cluster holds exactly one intent matching
the target-server index for `server` in `ns1`, and the derived rule
exists. -/
def c1Env : NPEnv :=
  { getIntents := .ok c1Obj
    getPolicy := fun n ns =>
      if n == "access-to-server-from-ns1" && ns == "ns1" then .ok ()
      else .error .notFound
    createPolicy := fun _ _ => .ok ()
    deletePolicy := fun _ _ => .ok ()
    updateIntents := fun _ => .ok ()
    listByServer := fun s ns =>
      if s == "server" && ns == "ns1" then .ok [c1Obj] else .ok [] }

/-- C1 witness: at the concrete last-reference state the equivalence is
realized with both sides true. -/
theorem C1_witness :
    c1Env.listByServer "server" "ns1" = .ok [c1Obj]
    ∧ ((Event.deletePolicy (networkPolicyName "server" "ns1")
          (defaultedCall "ns1" { server := "server", ns := "", type := .network }).ns
          ∈ (cleanCall c1Env "ns1" { server := "server", ns := "", type := .network }).2)
       ↔ (([c1Obj] : List IntentsObj).length = 1
          ∧ c1Env.getPolicy (networkPolicyName "server" "ns1")
              (defaultedCall "ns1" { server := "server", ns := "", type := .network }).ns
            = .ok ())) :=
  ⟨by decide,
   C1_rule_deleted_iff_last_reference c1Env "ns1"
     { server := "server", ns := "", type := .network } [c1Obj] (by decide)⟩

/-- C9: when cleanup of a terminating intent fails with a Kubernetes
conflict error, `Reconcile` returns a requeue-requesting result together
with a nil error instead of returning the conflict as an error. -/
theorem C9_conflict_returns_requeue (env : NPEnv) (o : IntentsObj)
    (sp : IntentsSpec) (e : KErr)
    (h1 : env.getIntents = .ok o) (h2 : o.spec = some sp)
    (h3 : o.deletionTimestamp = true)
    (h4 : (cleanFinalizerAndPolicies env o).1 = .error e)
    (h5 : e.isConflict = true) :
    (npReconcile env).1 = .ok ⟨true⟩ := by
  cases hc : cleanFinalizerAndPolicies env o with
  | mk r tr =>
    rw [hc] at h4
    simp only at h4
    subst h4
    simp [npReconcile, h1, h2, h3, hc, h5]

/-- The terminating intents object of the C9 witness. -/
def c9Obj : IntentsObj :=
  { name := "client-intents", ns := "ns1"
    spec := some { service := "client", calls := [] }
    deletionTimestamp := true, finalizers := [npFinalizer] }

/-- C9 witness environment: persisting the finalizer removal hits a
conflict. -/
def c9Env : NPEnv :=
  { getIntents := .ok c9Obj
    getPolicy := fun _ _ => .error .notFound
    createPolicy := fun _ _ => .ok ()
    deletePolicy := fun _ _ => .ok ()
    updateIntents := fun _ => .error .conflict
    listByServer := fun _ _ => .ok [c9Obj] }

/-- C9 witness: the concrete conflict scenario yields requeue with no
error. -/
theorem C9_witness :
    c9Env.getIntents = .ok c9Obj
    ∧ c9Obj.spec = some { service := "client", calls := [] }
    ∧ c9Obj.deletionTimestamp = true
    ∧ (cleanFinalizerAndPolicies c9Env c9Obj).1 = .error KErr.conflict
    ∧ KErr.conflict.isConflict = true
    ∧ (npReconcile c9Env).1 = .ok ⟨true⟩ :=
  ⟨by decide, by decide, by decide, by decide, by decide,
   C9_conflict_returns_requeue c9Env c9Obj { service := "client", calls := [] }
     KErr.conflict (by decide) (by decide) (by decide) (by decide) (by decide)⟩

/-- C10: a reconcile request whose intent object is absent (not-found) or
whose Spec is nil returns success with no requeue and produces an empty
trace in both reconcilers: no rule is created or deleted, no finalizer
update is persisted, no event is recorded and no broker admin session is
opened. -/
theorem C10_absent_or_specless_is_noop (e1 e2 : NPEnv) (k1 k2 : KEnv)
    (err1 err2 : KErr) (o1 o2 : IntentsObj)
    (h1 : e1.getIntents = .error err1) (h2 : err1.isNotFound = true)
    (h3 : e2.getIntents = .ok o1) (h4 : o1.spec = none)
    (h5 : k1.getIntents = .error err2) (h6 : err2.isNotFound = true)
    (h7 : k2.getIntents = .ok o2) (h8 : o2.spec = none) :
    npReconcile e1 = (.ok ⟨false⟩, [])
    ∧ npReconcile e2 = (.ok ⟨false⟩, [])
    ∧ kafkaReconcile k1 = (.ok ⟨false⟩, [])
    ∧ kafkaReconcile k2 = (.ok ⟨false⟩, []) := by
  refine ⟨?_, ?_, ?_, ?_⟩
  · simp [npReconcile, h1, h2]
  · simp [npReconcile, h3, h4]
  · simp [kafkaReconcile, h5, h6]
  · simp [kafkaReconcile, h7, h8]

/-- C10 witness environment: the intent object does not exist. -/
def c10NpEnvNotFound : NPEnv :=
  { getIntents := .error .notFound
    getPolicy := fun _ _ => .ok ()
    createPolicy := fun _ _ => .ok ()
    deletePolicy := fun _ _ => .ok ()
    updateIntents := fun _ => .ok ()
    listByServer := fun _ _ => .ok [] }

/-- An intents object with a nil Spec. -/
def c10SpeclessObj : IntentsObj :=
  { name := "client-intents", ns := "ns1", spec := none
    deletionTimestamp := false, finalizers := [] }

/-- C10 witness environment: the intent object exists with a nil Spec. -/
def c10NpEnvNilSpec : NPEnv :=
  { c10NpEnvNotFound with getIntents := .ok c10SpeclessObj }

/-- C10 witness Kafka environment: the intent object does not exist. -/
def c10KEnvNotFound : KEnv :=
  { getIntents := .error .notFound
    brokers := [("kafka", "ns1")]
    isEnforced := fun _ => .ok true
    connect := fun _ _ _ => .ok ()
    applyResult := fun _ => .ok ()
    removeResult := fun _ => .ok ()
    resolvePodName := .ok (some "intents-operator")
    operatorPodNamespace := "otterize-system"
    enableKafkaACLCreation := true }

/-- C10 witness Kafka environment: the intent object has a nil Spec. -/
def c10KEnvNilSpec : KEnv :=
  { c10KEnvNotFound with getIntents := .ok c10SpeclessObj }

/-- C10 witness: the concrete absent and specless requests are no-ops. -/
theorem C10_witness :
    c10NpEnvNotFound.getIntents = .error KErr.notFound
    ∧ KErr.notFound.isNotFound = true
    ∧ c10NpEnvNilSpec.getIntents = .ok c10SpeclessObj
    ∧ c10SpeclessObj.spec = none
    ∧ c10KEnvNotFound.getIntents = .error KErr.notFound
    ∧ c10KEnvNilSpec.getIntents = .ok c10SpeclessObj
    ∧ (npReconcile c10NpEnvNotFound = (.ok ⟨false⟩, [])
       ∧ npReconcile c10NpEnvNilSpec = (.ok ⟨false⟩, [])
       ∧ kafkaReconcile c10KEnvNotFound = (.ok ⟨false⟩, [])
       ∧ kafkaReconcile c10KEnvNilSpec = (.ok ⟨false⟩, [])) :=
  ⟨by decide, by decide, by decide, by decide, by decide, by decide,
   C10_absent_or_specless_is_noop c10NpEnvNotFound c10NpEnvNilSpec
     c10KEnvNotFound c10KEnvNilSpec KErr.notFound KErr.notFound
     c10SpeclessObj c10SpeclessObj
     (by decide) (by decide) (by decide) (by decide)
     (by decide) (by decide) (by decide) (by decide)⟩

/-- C3: ordering of finalizer persistence.  For an active intent whose
finalizer is absent, the Update persisting the attached finalizer is the
very first effect of the reconcile (so it precedes every rule-creation
attempt), and if that Update fails nothing else happens.  For a
terminating intent carrying the finalizer, the Update persisting the
finalizer removal appears in the trace only when the per-Call deletion
loop completed without error, and then only as the final effect, after
all deletion work. -/
theorem C3_finalizer_ordering (env1 env2 : NPEnv) (o1 o2 : IntentsObj)
    (sp1 sp2 : IntentsSpec)
    (h1 : env1.getIntents = .ok o1) (h2 : o1.spec = some sp1)
    (h3 : o1.deletionTimestamp = false) (h4 : npFinalizer ∉ o1.finalizers)
    (g1 : env2.getIntents = .ok o2) (g2 : o2.spec = some sp2)
    (g3 : o2.deletionTimestamp = true) (g4 : npFinalizer ∈ o2.finalizers) :
    ((npReconcile env1).2.head?
        = some (Event.updateIntents (o1.finalizers ++ [npFinalizer]))
     ∧ (∀ e, env1.updateIntents (o1.finalizers ++ [npFinalizer]) = .error e →
        (npReconcile env1).2 = [Event.updateIntents (o1.finalizers ++ [npFinalizer])]))
    ∧ (∀ fs, Event.updateIntents fs ∈ (npReconcile env2).2 →
        (cleanCalls env2 o2.ns (callsOf o2)).1 = .ok ()
        ∧ (npReconcile env2).2
            = (cleanCalls env2 o2.ns (callsOf o2)).2
              ++ [Event.updateIntents (o2.finalizers.filter (fun f => f ≠ npFinalizer))]) := by
  constructor
  · cases hu : env1.updateIntents (o1.finalizers ++ [npFinalizer]) with
    | error e0 =>
      have hr : npReconcile env1
          = (.error e0, [Event.updateIntents (o1.finalizers ++ [npFinalizer])]) := by
        simp [npReconcile, h1, h2, h3, h4, hu]
      constructor
      · rw [hr]
        rfl
      · intro e _
        rw [hr]
    | ok u =>
      cases u
      cases hcc : createCalls env1 o1.ns sp1.calls with
      | mk r2 tr2 =>
        have hr : (npReconcile env1).2
            = Event.updateIntents (o1.finalizers ++ [npFinalizer]) :: tr2 := by
          cases r2 with
          | error e2 => simp [npReconcile, h1, h2, h3, h4, hu, hcc]
          | ok u2 => simp [npReconcile, h1, h2, h3, h4, hu, hcc]
        constructor
        · rw [hr]
          rfl
        · intro e he
          exact absurd he (by simp)
  · intro fs hmem
    cases hcc : cleanCalls env2 o2.ns (callsOf o2) with
    | mk r tr =>
      cases r with
      | error e0 =>
        have htr : (npReconcile env2).2 = tr := by
          by_cases hcf : e0.isConflict = true
          · simp [npReconcile, cleanFinalizerAndPolicies, g1, g2, g3, g4, hcc, hcf]
          · simp only [Bool.not_eq_true] at hcf
            simp [npReconcile, cleanFinalizerAndPolicies, g1, g2, g3, g4, hcc, hcf]
        rw [htr] at hmem
        have hshape := cleanCalls_events env2 o2.ns (callsOf o2)
          (Event.updateIntents fs) (by rw [hcc]; exact hmem)
        rcases hshape with ⟨a, b, hab⟩
        exact absurd hab (by simp)
      | ok u =>
        cases u
        refine ⟨rfl, ?_⟩
        simp [npReconcile, cleanFinalizerAndPolicies, g1, g2, g3, g4, hcc]
        cases hu : env2.updateIntents
            (List.filter (fun f => !decide (f = npFinalizer)) o2.finalizers) with
        | error e1 =>
          cases hcf : e1.isConflict <;> simp [hcf]
        | ok u2 =>
          simp

/-- The active, finalizer-less intents object of the C3 witness. -/
def c3aObj : IntentsObj :=
  { name := "client-intents", ns := "ns1"
    spec := some { service := "client", calls := [{ server := "server", ns := "", type := .network }] }
    deletionTimestamp := false, finalizers := [] }

/-- C3 witness environment for the active path. -/
def c3aEnv : NPEnv :=
  { getIntents := .ok c3aObj
    getPolicy := fun _ _ => .error .notFound
    createPolicy := fun _ _ => .ok ()
    deletePolicy := fun _ _ => .ok ()
    updateIntents := fun _ => .ok ()
    listByServer := fun _ _ => .ok [] }

/-- The terminating intents object of the C3 witness. -/
def c3tObj : IntentsObj :=
  { name := "client-intents-2", ns := "ns1"
    spec := some { service := "client", calls := [{ server := "server", ns := "", type := .network }] }
    deletionTimestamp := true, finalizers := [npFinalizer] }

/-- C3 witness environment for the terminating path. -/
def c3tEnv : NPEnv :=
  { getIntents := .ok c3tObj
    getPolicy := fun _ _ => .ok ()
    createPolicy := fun _ _ => .ok ()
    deletePolicy := fun _ _ => .ok ()
    updateIntents := fun _ => .ok ()
    listByServer := fun _ _ => .ok [c3tObj] }

/-- C3 witness: the ordering facts realized at concrete active and
terminating reconciles. -/
theorem C3_witness :
    c3aEnv.getIntents = .ok c3aObj
    ∧ c3aObj.deletionTimestamp = false
    ∧ npFinalizer ∉ c3aObj.finalizers
    ∧ c3tEnv.getIntents = .ok c3tObj
    ∧ c3tObj.deletionTimestamp = true
    ∧ npFinalizer ∈ c3tObj.finalizers
    ∧ (((npReconcile c3aEnv).2.head?
          = some (Event.updateIntents (c3aObj.finalizers ++ [npFinalizer]))
        ∧ (∀ e, c3aEnv.updateIntents (c3aObj.finalizers ++ [npFinalizer]) = .error e →
           (npReconcile c3aEnv).2 = [Event.updateIntents (c3aObj.finalizers ++ [npFinalizer])]))
       ∧ (∀ fs, Event.updateIntents fs ∈ (npReconcile c3tEnv).2 →
           (cleanCalls c3tEnv c3tObj.ns (callsOf c3tObj)).1 = .ok ()
           ∧ (npReconcile c3tEnv).2
               = (cleanCalls c3tEnv c3tObj.ns (callsOf c3tObj)).2
                 ++ [Event.updateIntents (c3tObj.finalizers.filter (fun f => f ≠ npFinalizer))])) :=
  ⟨by decide, by decide, by decide, by decide, by decide, by decide,
   C3_finalizer_ordering c3aEnv c3tEnv c3aObj c3tObj
     { service := "client", calls := [{ server := "server", ns := "", type := .network }] }
     { service := "client", calls := [{ server := "server", ns := "", type := .network }] }
     (by decide) (by decide) (by decide) (by decide)
     (by decide) (by decide) (by decide) (by decide)⟩

lemma mapErrBrokers_ok (f : String × String → Except KErr Unit × List Event)
    (bs : List (String × String))
    (hok : ∀ b ∈ bs, (f b).1 = .ok ()) :
    (mapErrBrokers f bs).1 = .ok () := by
  induction bs with
  | nil => rfl
  | cons b0 rest ih =>
    have hok0 : (f b0).1 = .ok () := hok b0 (List.mem_cons_self b0 rest)
    unfold mapErrBrokers
    cases hf : f b0 with
    | mk r tr =>
      rw [hf] at hok0
      simp only at hok0
      rw [hok0]
      simp only
      exact ih (fun b' hb' => hok b' (List.mem_cons_of_mem b0 hb'))

lemma removeBroker_ok (env : KEnv) (b : String × String) (eb : Bool)
    (he : env.isEnforced b = .ok eb)
    (hc : env.connect b env.enableKafkaACLCreation eb = .ok ())
    (hr : env.removeResult b = .ok ()) :
    removeBroker env b
      = (.ok (), [Event.openAdmin b.1 b.2 env.enableKafkaACLCreation eb,
          Event.removeIntents b.1 b.2, Event.closeAdmin b.1 b.2]) := by
  simp [removeBroker, he, hc, hr]

/-- C4: enforcement gating never gates removal.  For a terminating intent
in which every configured broker resolves to an arbitrary enforcement
decision (any boolean per broker) and connects successfully,
`RemoveClientIntents` is invoked on every configured broker; the modelled
admin removal leaves no ACL entry of the principal on the broker no matter
what; and on the apply path a broker whose enforcement resolved false
still gets an admin session opened with creation gated off, whose modelled
apply adds no new ACL entry to the broker state. -/
theorem C4_removal_never_gated (env : KEnv) (o : IntentsObj)
    (sp : IntentsSpec) (enfOf : String × String → Bool)
    (env2 : KEnv) (b0 : String × String)
    (h1 : env.getIntents = .ok o) (h2 : o.spec = some sp)
    (h3 : o.deletionTimestamp = true)
    (h4 : ∀ b ∈ env.brokers, env.isEnforced b = .ok (enfOf b))
    (h5 : ∀ b ∈ env.brokers, env.connect b env.enableKafkaACLCreation (enfOf b) = .ok ())
    (h6 : ∀ b ∈ env.brokers, env.removeResult b = .ok ())
    (h7 : env2.isEnforced b0 = .ok false)
    (h8 : env2.connect b0 env2.enableKafkaACLCreation false = .ok ())
    (h9 : env2.applyResult b0 = .ok ()) :
    (∀ b ∈ env.brokers, Event.removeIntents b.1 b.2 ∈ (kafkaReconcile env).2)
    ∧ (∀ p st, ∀ g ∈ removeClientIntentsAcls p st, g.principal ≠ p)
    ∧ ((applyBroker env2 b0).1 = .ok ()
       ∧ (applyBroker env2 b0).2
           = [Event.normalEvent ReasonEnforcementDefaultOff,
              Event.openAdmin b0.1 b0.2 env2.enableKafkaACLCreation false,
              Event.applyIntents b0.1 b0.2, Event.closeAdmin b0.1 b0.2])
    ∧ (∀ ce p d st, ∀ g ∈ applyClientIntentsAcls false ce p d st, g ∈ st) := by
  have hallok : ∀ b ∈ env.brokers, (removeBroker env b).1 = .ok () := by
    intro b hb
    rw [removeBroker_ok env b (enfOf b) (h4 b hb) (h5 b hb) (h6 b hb)]
  refine ⟨?_, ?_, ?_, ?_⟩
  · intro b hb
    have hmem : Event.removeIntents b.1 b.2 ∈ (removeBroker env b).2 := by
      rw [removeBroker_ok env b (enfOf b) (h4 b hb) (h5 b hb) (h6 b hb)]
      simp
    have hmm := mapErrBrokers_mem (removeBroker env) env.brokers hallok b hb
      (Event.removeIntents b.1 b.2) hmem
    have hok := mapErrBrokers_ok (removeBroker env) env.brokers hallok
    cases hm : mapErrBrokers (removeBroker env) env.brokers with
    | mk r tr =>
      rw [hm] at hmm hok
      simp only at hok
      have htr : (kafkaReconcile env).2 = tr := by
        simp [kafkaReconcile, handleIntentsDeletion, removeACLs, h1, h2, h3, hm, hok]
      rw [htr]
      exact hmm
  · intro p st g hg
    simp only [removeClientIntentsAcls, List.mem_filter] at hg
    simpa using hg.2
  · constructor
    · simp [applyBroker, h7, h8, h9]
    · simp [applyBroker, h7, h8, h9]
  · intro ce p d st g hg
    simp only [applyClientIntentsAcls, Bool.false_and, if_neg] at hg
    simp only [Bool.false_eq_true, if_false, List.mem_filter] at hg
    exact hg.1

/-- The terminating intents object of the C4 witness. -/
def c4Obj : IntentsObj :=
  { name := "client-intents", ns := "ns1"
    spec := some { service := "client", calls := [{ server := "kafka", ns := "ns1", type := .kafka }] }
    deletionTimestamp := true, finalizers := [] }

/-- C4 witness environment: two configured brokers, enforcement resolved
false everywhere, removal succeeding. -/
def c4Env : KEnv :=
  { getIntents := .ok c4Obj
    brokers := [("kafka", "ns1"), ("kafka2", "ns2")]
    isEnforced := fun _ => .ok false
    connect := fun _ _ _ => .ok ()
    applyResult := fun _ => .ok ()
    removeResult := fun _ => .ok ()
    resolvePodName := .ok (some "intents-operator")
    operatorPodNamespace := "otterize-system"
    enableKafkaACLCreation := true }

/-- C4 witness: removal reaches every broker although enforcement is off
for all of them. -/
theorem C4_witness :
    c4Env.getIntents = .ok c4Obj
    ∧ c4Obj.deletionTimestamp = true
    ∧ (∀ b ∈ c4Env.brokers, c4Env.isEnforced b = .ok false)
    ∧ (∀ b ∈ c4Env.brokers, c4Env.connect b c4Env.enableKafkaACLCreation false = .ok ())
    ∧ (∀ b ∈ c4Env.brokers, c4Env.removeResult b = .ok ())
    ∧ ((∀ b ∈ c4Env.brokers, Event.removeIntents b.1 b.2 ∈ (kafkaReconcile c4Env).2)
       ∧ (∀ p st, ∀ g ∈ removeClientIntentsAcls p st, g.principal ≠ p)
       ∧ ((applyBroker c4Env ("kafka", "ns1")).1 = .ok ()
          ∧ (applyBroker c4Env ("kafka", "ns1")).2
              = [Event.normalEvent ReasonEnforcementDefaultOff,
                 Event.openAdmin "kafka" "ns1" c4Env.enableKafkaACLCreation false,
                 Event.applyIntents "kafka" "ns1", Event.closeAdmin "kafka" "ns1"])
       ∧ (∀ ce p d st, ∀ g ∈ applyClientIntentsAcls false ce p d st, g ∈ st)) :=
  ⟨by decide, by decide, by decide, by decide, by decide,
   C4_removal_never_gated c4Env c4Obj
     { service := "client", calls := [{ server := "kafka", ns := "ns1", type := .kafka }] }
     (fun _ => false) c4Env ("kafka", "ns1")
     (by decide) (by decide) (by decide) (by decide) (by decide) (by decide)
     (by decide) (by decide) (by decide)⟩

/-- The active intents object of the C5 counterexample, declaring Kafka
calls to two configured brokers. -/
def c5Obj : IntentsObj :=
  { name := "client-intents", ns := "ns1"
    spec := some { service := "client"
                   calls := [{ server := "kafka", ns := "ns1", type := .kafka },
                             { server := "kafka2", ns := "ns2", type := .kafka }] }
    deletionTimestamp := false, finalizers := [] }

/-- C5 counterexample environment: two configured brokers; connecting to
the first fails, the second would succeed. -/
def c5Env : KEnv :=
  { getIntents := .ok c5Obj
    brokers := [("kafka", "ns1"), ("kafka2", "ns2")]
    isEnforced := fun _ => .ok true
    connect := fun b _ _ => if b.1 == "kafka" then .error .generic else .ok ()
    applyResult := fun _ => .ok ()
    removeResult := fun _ => .ok ()
    resolvePodName := .ok (some "intents-operator")
    operatorPodNamespace := "otterize-system"
    enableKafkaACLCreation := true }

/-- C5 counterexample: the claim says a connection failure aborts only
that brokers apply and the remaining configured brokers are still
processed in the same pass.  In this concrete state the first brokers
connection fails: the whole pass stops with the error returned, and the
second configured broker is never processed (no admin session is opened
for it and no apply reaches it). -/
theorem C5_counterexample_connect_failure_stops_pass :
    (kafkaReconcile c5Env).1 = .error KErr.generic
    ∧ Event.warnEvent ReasonCouldNotConnectToKafkaServer ∈ (kafkaReconcile c5Env).2
    ∧ Event.openAdmin "kafka2" "ns2" true true ∉ (kafkaReconcile c5Env).2
    ∧ Event.applyIntents "kafka2" "ns2" ∉ (kafkaReconcile c5Env).2 := by
  refine ⟨?_, ?_, ?_, ?_⟩ <;> decide

/-- C5 amended: on the apply path a broker connection failure records the
connect warning event and returns the error, aborting the whole per-broker
loop: brokers after the failing one are not processed in this pass (no
admin session is opened and no apply is attempted at all), and the
reconcile fails so it is retried; an apply-time failure on a broker
likewise records the apply warning event and returns the error. -/
theorem C5_amended_connect_failure_aborts_pass (env : KEnv) (o : IntentsObj)
    (sp : IntentsSpec) (b0 : String × String) (rest : List (String × String))
    (eb : Bool) (e : KErr)
    (env2 : KEnv) (o2 : IntentsObj) (sp2 : IntentsSpec)
    (b2 : String × String) (rest2 : List (String × String)) (eb2 : Bool) (e2 : KErr)
    (h1 : env.getIntents = .ok o) (h2 : o.spec = some sp)
    (h3 : o.deletionTimestamp = false) (h4 : env.operatorPodNamespace ≠ o.ns)
    (h5 : env.brokers = b0 :: rest)
    (h6 : env.isEnforced b0 = .ok eb)
    (h7 : env.connect b0 env.enableKafkaACLCreation eb = .error e)
    (g1 : env2.getIntents = .ok o2) (g2 : o2.spec = some sp2)
    (g3 : o2.deletionTimestamp = false) (g4 : env2.operatorPodNamespace ≠ o2.ns)
    (g5 : env2.brokers = b2 :: rest2)
    (g6 : env2.isEnforced b2 = .ok eb2)
    (g7 : env2.connect b2 env2.enableKafkaACLCreation eb2 = .ok ())
    (g8 : env2.applyResult b2 = .error e2) :
    ((kafkaReconcile env).1 = .error e
     ∧ Event.warnEvent ReasonCouldNotConnectToKafkaServer ∈ (kafkaReconcile env).2
     ∧ (∀ n m x y, Event.openAdmin n m x y ∉ (kafkaReconcile env).2)
     ∧ (∀ n m, Event.applyIntents n m ∉ (kafkaReconcile env).2))
    ∧ ((kafkaReconcile env2).1 = .error e2
       ∧ Event.warnEvent ReasonCouldNotApplyIntentsOnKafkaServer ∈ (kafkaReconcile env2).2) := by
  constructor
  · cases eb with
    | false =>
      have hK : kafkaReconcile env
          = (.error e, [Event.normalEvent ReasonEnforcementDefaultOff,
              Event.warnEvent ReasonCouldNotConnectToKafkaServer,
              Event.warnEvent ReasonApplyingKafkaACLsFailed]) := by
        simp [kafkaReconcile, isIntentsForTheIntentsOperator, applyAcls, applyACLs,
          mapErrBrokers, applyBroker, h1, h2, h3, h4, h5, h6, h7]
      refine ⟨by rw [hK], by rw [hK]; simp, ?_, ?_⟩
      · intro n m x y
        rw [hK]
        simp
      · intro n m
        rw [hK]
        simp
    | true =>
      have hK : kafkaReconcile env
          = (.error e, [Event.warnEvent ReasonCouldNotConnectToKafkaServer,
              Event.warnEvent ReasonApplyingKafkaACLsFailed]) := by
        simp [kafkaReconcile, isIntentsForTheIntentsOperator, applyAcls, applyACLs,
          mapErrBrokers, applyBroker, h1, h2, h3, h4, h5, h6, h7]
      refine ⟨by rw [hK], by rw [hK]; simp, ?_, ?_⟩
      · intro n m x y
        rw [hK]
        simp
      · intro n m
        rw [hK]
        simp
  · cases eb2 with
    | false =>
      have hK : kafkaReconcile env2
          = (.error e2, [Event.normalEvent ReasonEnforcementDefaultOff,
              Event.openAdmin b2.1 b2.2 env2.enableKafkaACLCreation false,
              Event.applyIntents b2.1 b2.2,
              Event.warnEvent ReasonCouldNotApplyIntentsOnKafkaServer,
              Event.closeAdmin b2.1 b2.2,
              Event.warnEvent ReasonApplyingKafkaACLsFailed]) := by
        simp [kafkaReconcile, isIntentsForTheIntentsOperator, applyAcls, applyACLs,
          mapErrBrokers, applyBroker, g1, g2, g3, g4, g5, g6, g7, g8]
      refine ⟨by rw [hK], by rw [hK]; simp⟩
    | true =>
      have hK : kafkaReconcile env2
          = (.error e2, [Event.openAdmin b2.1 b2.2 env2.enableKafkaACLCreation true,
              Event.applyIntents b2.1 b2.2,
              Event.warnEvent ReasonCouldNotApplyIntentsOnKafkaServer,
              Event.closeAdmin b2.1 b2.2,
              Event.warnEvent ReasonApplyingKafkaACLsFailed]) := by
        simp [kafkaReconcile, isIntentsForTheIntentsOperator, applyAcls, applyACLs,
          mapErrBrokers, applyBroker, g1, g2, g3, g4, g5, g6, g7, g8]
      refine ⟨by rw [hK], by rw [hK]; simp⟩

/-- C5 witness environment for the apply-failure half: connections succeed
and the apply on the first broker fails. -/
def c5Env2 : KEnv :=
  { c5Env with
    connect := fun _ _ _ => .ok ()
    applyResult := fun b => if b.1 == "kafka" then .error .generic else .ok () }

/-- C5 witness: the amended behavior realized at the concrete two-broker
states. -/
theorem C5_witness :
    c5Env.getIntents = .ok c5Obj
    ∧ c5Obj.deletionTimestamp = false
    ∧ c5Env.operatorPodNamespace ≠ c5Obj.ns
    ∧ c5Env.brokers = ("kafka", "ns1") :: [("kafka2", "ns2")]
    ∧ c5Env.isEnforced ("kafka", "ns1") = .ok true
    ∧ c5Env.connect ("kafka", "ns1") c5Env.enableKafkaACLCreation true = .error KErr.generic
    ∧ c5Env2.getIntents = .ok c5Obj
    ∧ c5Env2.connect ("kafka", "ns1") c5Env2.enableKafkaACLCreation true = .ok ()
    ∧ c5Env2.applyResult ("kafka", "ns1") = .error KErr.generic
    ∧ (((kafkaReconcile c5Env).1 = .error KErr.generic
        ∧ Event.warnEvent ReasonCouldNotConnectToKafkaServer ∈ (kafkaReconcile c5Env).2
        ∧ (∀ n m x y, Event.openAdmin n m x y ∉ (kafkaReconcile c5Env).2)
        ∧ (∀ n m, Event.applyIntents n m ∉ (kafkaReconcile c5Env).2))
       ∧ ((kafkaReconcile c5Env2).1 = .error KErr.generic
          ∧ Event.warnEvent ReasonCouldNotApplyIntentsOnKafkaServer ∈ (kafkaReconcile c5Env2).2)) :=
  ⟨by decide, by decide, by decide, by decide, by decide, by decide,
   by decide, by decide, by decide,
   C5_amended_connect_failure_aborts_pass c5Env c5Obj
     { service := "client"
       calls := [{ server := "kafka", ns := "ns1", type := .kafka },
                 { server := "kafka2", ns := "ns2", type := .kafka }] }
     ("kafka", "ns1") [("kafka2", "ns2")] true KErr.generic
     c5Env2 c5Obj
     { service := "client"
       calls := [{ server := "kafka", ns := "ns1", type := .kafka },
                 { server := "kafka2", ns := "ns2", type := .kafka }] }
     ("kafka", "ns1") [("kafka2", "ns2")] true KErr.generic
     (by decide) (by decide) (by decide) (by decide) (by decide) (by decide)
     (by decide) (by decide) (by decide) (by decide) (by decide) (by decide)
     (by decide) (by decide) (by decide)⟩

/-- The active intents object of the C6 scenarios: it lives in the
operator pods own namespace. -/
def c6Obj : IntentsObj :=
  { name := "client-intents", ns := "otterize-system"
    spec := some { service := "client", calls := [] }
    deletionTimestamp := false, finalizers := [] }

/-- C6 counterexample environment: resolving the operator pods annotated
service name fails with a resolver error. -/
def c6Env : KEnv :=
  { getIntents := .ok c6Obj
    brokers := [("kafka", "ns1")]
    isEnforced := fun _ => .ok true
    connect := fun _ _ _ => .ok ()
    applyResult := fun _ => .ok ()
    removeResult := fun _ => .ok ()
    resolvePodName := .error .generic
    operatorPodNamespace := "otterize-system"
    enableKafkaACLCreation := true }

/-- C6 counterexample: the claim says a resolver failure returns an error
AND records a warning event.  At this concrete state the resolver errors:
the reconcile does fail, but the trace is empty, so no warning event is
recorded. -/
theorem C6_counterexample_resolver_error_no_event :
    kafkaReconcile c6Env = (.error KErr.generic, []) := by
  decide

/-- C6 amended: for an active intent in the operator pods own namespace,
failure to resolve the operator identity is a hard error either way, but
the warning event is recorded only in the missing-annotation case; a
resolver error is returned with no event. -/
theorem C6_amended_identity_failure_hard_error (env : KEnv) (o : IntentsObj)
    (sp : IntentsSpec)
    (h1 : env.getIntents = .ok o) (h2 : o.spec = some sp)
    (h3 : o.deletionTimestamp = false)
    (h4 : env.operatorPodNamespace = o.ns) :
    (∀ e, env.resolvePodName = .error e → kafkaReconcile env = (.error e, []))
    ∧ (env.resolvePodName = .ok none →
        kafkaReconcile env
          = (.error KErr.generic,
             [Event.warnEvent ReasonIntentsOperatorIdentityResolveFailed])) := by
  constructor
  · intro e he
    simp [kafkaReconcile, isIntentsForTheIntentsOperator, h1, h2, h3, h4, he]
  · intro hn
    simp [kafkaReconcile, isIntentsForTheIntentsOperator, h1, h2, h3, h4, hn]

/-- C6 witness environment: the operator pod has no service-name
annotation (resolution succeeds but finds no identity). -/
def c6EnvNone : KEnv :=
  { c6Env with resolvePodName := .ok none }

/-- C6 witness: the concrete missing-annotation state fails hard with the
warning event, and resolver errors would fail hard without one. -/
theorem C6_witness :
    c6EnvNone.getIntents = .ok c6Obj
    ∧ c6Obj.deletionTimestamp = false
    ∧ c6EnvNone.operatorPodNamespace = c6Obj.ns
    ∧ ((∀ e, c6EnvNone.resolvePodName = .error e →
          kafkaReconcile c6EnvNone = (.error e, []))
       ∧ (c6EnvNone.resolvePodName = .ok none →
          kafkaReconcile c6EnvNone
            = (.error KErr.generic,
               [Event.warnEvent ReasonIntentsOperatorIdentityResolveFailed]))) :=
  ⟨by decide, by decide, by decide,
   C6_amended_identity_failure_hard_error c6EnvNone c6Obj
     { service := "client", calls := [] }
     (by decide) (by decide) (by decide) (by decide)⟩
